import Mathlib

set_option maxHeartbeats 1000000

/-! Shallow embedding of the FileMonitor sources: monitor.c (the unified
basic/advanced/enhanced monitor), main.c (the standalone basic monitor) and
advanced_monitor.c (the standalone advanced monitor).  Filenames, paths and
log lines are lists of characters; inotify masks are natural numbers carrying
the kernel bit values; the mutable globals of each translation unit are
threaded through the functions explicitly.  OS effects that the functions
consume (the result of calculate_file_hash, stat, inotify_add_watch, realloc)
are passed in as parameters. -/

/-! ## C string helpers -/

/-- Inner comparison loop of strstr: does the second list start with the
first one? -/
def startsWithSeq : List Char → List Char → Bool
  | [], _ => true
  | _ :: _, [] => false
  | a :: as, b :: bs => a == b && startsWithSeq as bs

/-- strstr(haystack, needle) != NULL: the needle occurs contiguously inside
the haystack. -/
def containsSeq (needle : List Char) : List Char → Bool
  | [] => needle.isEmpty
  | c :: rest => startsWithSeq needle (c :: rest) || containsSeq needle rest

/-- strrchr(filename, '.') followed by ext++ in should_monitor_file: the
suffix strictly after the last '.' of the filename, or none when the
filename has no '.' at all. -/
def afterLastDot : List Char → Option (List Char)
  | [] => none
  | c :: rest =>
    match afterLastDot rest with
    | some s => some s
    | none => if c = '.' then some rest else none

theorem afterLastDot_eq_none_iff (fn : List Char) :
    afterLastDot fn = none ↔ '.' ∉ fn := by
  induction fn with
  | nil => simp [afterLastDot]
  | cons c rest ih =>
    simp only [afterLastDot]
    cases h : afterLastDot rest with
    | some s =>
      have hmem : '.' ∈ rest := by
        by_contra hc
        rw [← ih] at hc
        rw [h] at hc
        exact Option.noConfusion hc
      simp [hmem]
    | none =>
      have hnm : '.' ∉ rest := ih.mp h
      by_cases hc : c = '.'
      · subst hc
        simp
      · simp [hc, hnm, Ne.symm hc]

theorem afterLastDot_eq_some_iff (fn e : List Char) :
    afterLastDot fn = some e ↔ ∃ pre, fn = pre ++ '.' :: e ∧ '.' ∉ e := by
  induction fn with
  | nil =>
    simp only [afterLastDot]
    constructor
    · intro h; exact Option.noConfusion h
    · rintro ⟨pre, hpre, -⟩
      exact absurd hpre (by simp)
  | cons c rest ih =>
    simp only [afterLastDot]
    cases h : afterLastDot rest with
    | some s =>
      have hmem : '.' ∈ rest := by
        by_contra hc
        rw [← afterLastDot_eq_none_iff] at hc
        rw [h] at hc
        exact Option.noConfusion hc
      constructor
      · intro hs
        obtain rfl : s = e := by simpa using hs
        obtain ⟨pre, hpre, hne⟩ := ih.mp h
        exact ⟨c :: pre, by simp [hpre], hne⟩
      · rintro ⟨pre, hpre, hne⟩
        cases pre with
        | nil =>
          simp only [List.nil_append, List.cons.injEq] at hpre
          exact absurd (hpre.2 ▸ hmem) hne
        | cons p ps =>
          simp only [List.cons_append, List.cons.injEq] at hpre
          have heq : afterLastDot rest = some e := ih.mpr ⟨ps, hpre.2, hne⟩
          rw [h] at heq
          simpa using heq
    | none =>
      have hnm : '.' ∉ rest := (afterLastDot_eq_none_iff rest).mp h
      by_cases hc : c = '.'
      · subst hc
        simp only [if_pos rfl]
        constructor
        · intro he
          obtain rfl : rest = e := by simpa using he
          exact ⟨[], rfl, hnm⟩
        · rintro ⟨pre, hpre, hne⟩
          cases pre with
          | nil =>
            simp only [List.nil_append, List.cons.injEq] at hpre
            simp [hpre.2]
          | cons p ps =>
            simp only [List.cons_append, List.cons.injEq] at hpre
            exact absurd (hpre.2 ▸ (by simp : '.' ∈ ps ++ '.' :: e)) hnm
      · rw [if_neg hc]
        constructor
        · intro h'; simp at h'
        · rintro ⟨pre, hpre, hne⟩
          cases pre with
          | nil =>
            simp only [List.nil_append, List.cons.injEq] at hpre
            exact absurd hpre.1 hc
          | cons p ps =>
            simp only [List.cons_append, List.cons.injEq] at hpre
            exact absurd (hpre.2 ▸ (by simp : '.' ∈ ps ++ '.' :: e)) hnm

/-! ## Extension allow-list filter (monitor.c / main.c should_monitor_file) -/

/-- should_monitor_file from monitor.c (identical in main.c): with no
configured extensions every file is monitored; otherwise the suffix after the
last '.' must compare equal (strcmp) to one of the configured extensions, and
a name without '.' is rejected. -/
def should_monitor_file (exts : List (List Char)) (filename : List Char) : Bool :=
  if exts.length = 0 then true
  else
    match afterLastDot filename with
    | none => false
    | some e => exts.any (fun x => x == e)

/-- Claim C7: if the extension allow-list is empty the extension layer
accepts every filename; if it is non-empty, a filename passes exactly when
the substring after its last '.' case-sensitively equals a listed value, and
a filename containing no '.' at all is rejected. -/
theorem C7_extension_filter (exts : List (List Char)) (fn : List Char) :
    (exts = [] → should_monitor_file exts fn = true)
    ∧ (exts ≠ [] →
        (should_monitor_file exts fn = true ↔
          ∃ pre e, fn = pre ++ '.' :: e ∧ '.' ∉ e ∧ e ∈ exts))
    ∧ ('.' ∉ fn → exts ≠ [] → should_monitor_file exts fn = false) := by
  have hlen : exts ≠ [] → ¬exts.length = 0 := by
    intro hne h
    exact hne (List.length_eq_zero.mp h)
  refine ⟨?_, ?_, ?_⟩
  · intro h; subst h; simp [should_monitor_file]
  · intro hne
    unfold should_monitor_file
    rw [if_neg (hlen hne)]
    cases h : afterLastDot fn with
    | none =>
      simp only [Bool.false_eq_true, false_iff]
      rintro ⟨pre, e, hpre, hdot, -⟩
      have habs : afterLastDot fn = some e := (afterLastDot_eq_some_iff fn e).mpr ⟨pre, hpre, hdot⟩
      rw [h] at habs
      exact Option.noConfusion habs
    | some s =>
      simp only [List.any_eq_true, beq_iff_eq]
      constructor
      · rintro ⟨x, hx, rfl⟩
        obtain ⟨pre, hpre, hdot⟩ := (afterLastDot_eq_some_iff fn x).mp h
        exact ⟨pre, x, hpre, hdot, hx⟩
      · rintro ⟨pre, e, hpre, hdot, he⟩
        have : afterLastDot fn = some e := (afterLastDot_eq_some_iff fn e).mpr ⟨pre, hpre, hdot⟩
        rw [h] at this
        exact ⟨e, he, (Option.some.inj this).symm⟩
  · intro hdot hne
    unfold should_monitor_file
    rw [if_neg (hlen hne), (afterLastDot_eq_none_iff fn).mpr hdot]

/-- Concrete instance of C7: with allow-list {txt}, "notes.txt" passes and
"noext" is rejected. -/
theorem C7_extension_filter_witness :
    should_monitor_file ["txt".toList] "notes.txt".toList = true
    ∧ should_monitor_file ["txt".toList] "noext".toList = false := by
  constructor
  · exact ((C7_extension_filter ["txt".toList] "notes.txt".toList).2.1 (by decide)).mpr
      ⟨"notes".toList, "txt".toList, by decide, by decide, by decide⟩
  · exact (C7_extension_filter ["txt".toList] "noext".toList).2.2 (by decide) (by decide)

/-! ## inotify constants (sys/inotify.h bit values) -/

def IN_ACCESS : Nat := 0x00000001
def IN_MODIFY : Nat := 0x00000002
def IN_ATTRIB : Nat := 0x00000004
def IN_CLOSE_WRITE : Nat := 0x00000008
def IN_CLOSE_NOWRITE : Nat := 0x00000010
def IN_CLOSE : Nat := IN_CLOSE_WRITE ||| IN_CLOSE_NOWRITE
def IN_OPEN : Nat := 0x00000020
def IN_MOVED_FROM : Nat := 0x00000040
def IN_MOVED_TO : Nat := 0x00000080
def IN_MOVE : Nat := IN_MOVED_FROM ||| IN_MOVED_TO
def IN_CREATE : Nat := 0x00000100
def IN_DELETE : Nat := 0x00000200
def IN_Q_OVERFLOW : Nat := 0x00004000
def IN_ISDIR : Nat := 0x40000000

/-- Truthiness of event->mask & FLAG in C. -/
def maskHas (m f : Nat) : Bool := (m &&& f) != 0

/-- One struct inotify_event.  name = none models len == 0 (no name field,
e.g. the queue-overflow marker); name = some nm models len > 0. -/
structure InotifyEvent where
  wd : Int
  mask : Nat
  name : Option (List Char)

/-- A printf-style log line "<template><path>". -/
def msg (template : String) (p : List Char) : List Char := template.toList ++ p

/-! ## monitor.c basic mode: handle_event_basic -/

namespace MonitorC

/-- Result of one handle_event_basic call: the total_events counter after
the call, the log lines appended (in order), and the directories passed to
add_watch_recursive_basic. -/
structure BasicResult where
  totalEvents : Nat
  logs : List (List Char)
  recursedInto : List (List Char)
deriving DecidableEq, Repr

/-- handle_event_basic from monitor.c: bumps stats.total_events first, then
for a named event applies the extension filter and logs one line per set
flag among IN_CREATE, IN_DELETE, IN_MODIFY, IN_MOVED_FROM, IN_MOVED_TO,
IN_OPEN, IN_CLOSE (there is no IN_ATTRIB branch); a directory creation in
recursive mode re-enters the recursive watch installer. -/
def handle_event_basic (exts : List (List Char)) (recMode : Bool)
    (totalEvents : Nat) (ev : InotifyEvent) (watchPath : List Char) : BasicResult :=
  let t := totalEvents + 1
  match ev.name with
  | none => ⟨t, [], []⟩
  | some nm =>
    if should_monitor_file exts nm = false then ⟨t, [], []⟩
    else
      let full := watchPath ++ '/' :: nm
      let l1 := if maskHas ev.mask IN_CREATE then [msg "Created: " full] else []
      let r1 := if maskHas ev.mask IN_CREATE && (maskHas ev.mask IN_ISDIR && recMode) then
                  [full] else []
      let l2 := if maskHas ev.mask IN_DELETE then [msg "Deleted: " full] else []
      let l3 := if maskHas ev.mask IN_MODIFY then [msg "Modified: " full] else []
      let l4 := if maskHas ev.mask IN_MOVED_FROM then [msg "Moved from: " full] else []
      let l5 := if maskHas ev.mask IN_MOVED_TO then [msg "Moved to: " full] else []
      let l6 := if maskHas ev.mask IN_OPEN then [msg "Opened: " full] else []
      let l7 := if maskHas ev.mask IN_CLOSE then [msg "Closed: " full] else []
      ⟨t, l1 ++ l2 ++ l3 ++ l4 ++ l5 ++ l6 ++ l7, r1⟩

end MonitorC

/-- The flag-to-template table realized by handle_event_basic (monitor.c):
seven event kinds, IN_ATTRIB absent. -/
def basicKinds : List (Nat × String) :=
  [(IN_CREATE, "Created: "), (IN_DELETE, "Deleted: "), (IN_MODIFY, "Modified: "),
   (IN_MOVED_FROM, "Moved from: "), (IN_MOVED_TO, "Moved to: "),
   (IN_OPEN, "Opened: "), (IN_CLOSE, "Closed: ")]

/-! ## monitor.c enhanced mode: watch manager and handle_event_enhanced -/

/-- watch_entry_t from monitor.c. -/
structure WatchEntry where
  wd : Int
  path : List Char
  addedTime : Nat
  eventCount : Nat
deriving DecidableEq, Repr

/-- find_watch_by_wd: linear scan for the first entry with the given wd. -/
def findWatchByWd (wd : Int) : List WatchEntry → Option WatchEntry
  | [] => none
  | e :: rest => if e.wd = wd then some e else findWatchByWd wd rest

/-- watch_entry->event_count++ through the pointer returned by
find_watch_by_wd: increments the first entry with the given wd. -/
def bumpWatchByWd (wd : Int) : List WatchEntry → List WatchEntry
  | [] => []
  | e :: rest =>
    if e.wd = wd then { e with eventCount := e.eventCount + 1 } :: rest
    else e :: bumpWatchByWd wd rest

namespace MonitorC

/-- The mutable state handle_event_enhanced touches: the watch manager
entries and the global statistics fields it updates. -/
structure EnhancedState where
  entries : List WatchEntry
  totalEvents : Nat
  maxEventsPerPath : Nat
  mostActivePath : List Char
deriving DecidableEq, Repr

/-- Result of one handle_event_enhanced call. -/
structure EnhancedResult where
  st : EnhancedState
  logs : List (List Char)
  recursedInto : List (List Char)
deriving DecidableEq, Repr

/-- handle_event_enhanced from monitor.c: resolves the watch descriptor
(warning on an unknown one), bumps the per-watch event count, the global
total and the most-active-path tracking, and only then applies the
extension filter and the per-flag logging (same seven kinds as basic
mode). -/
def handle_event_enhanced (exts : List (List Char)) (recMode : Bool)
    (s : EnhancedState) (ev : InotifyEvent) : EnhancedResult :=
  match findWatchByWd ev.wd s.entries with
  | none => ⟨s, [msg "[WARN] Event from unknown watch descriptor" []], []⟩
  | some e =>
    let newCount := e.eventCount + 1
    let s1 : EnhancedState :=
      { entries := bumpWatchByWd ev.wd s.entries
        totalEvents := s.totalEvents + 1
        maxEventsPerPath := if newCount > s.maxEventsPerPath then newCount
                            else s.maxEventsPerPath
        mostActivePath := if newCount > s.maxEventsPerPath then e.path
                          else s.mostActivePath }
    match ev.name with
    | none => ⟨s1, [], []⟩
    | some nm =>
      if should_monitor_file exts nm = false then ⟨s1, [], []⟩
      else
        let full := e.path ++ '/' :: nm
        let l1 := if maskHas ev.mask IN_CREATE then [msg "Created: " full] else []
        let r1 := if maskHas ev.mask IN_CREATE && (maskHas ev.mask IN_ISDIR && recMode) then
                    [full] else []
        let l2 := if maskHas ev.mask IN_DELETE then [msg "Deleted: " full] else []
        let l3 := if maskHas ev.mask IN_MODIFY then [msg "Modified: " full] else []
        let l4 := if maskHas ev.mask IN_MOVED_FROM then [msg "Moved from: " full] else []
        let l5 := if maskHas ev.mask IN_MOVED_TO then [msg "Moved to: " full] else []
        let l6 := if maskHas ev.mask IN_OPEN then [msg "Opened: " full] else []
        let l7 := if maskHas ev.mask IN_CLOSE then [msg "Closed: " full] else []
        ⟨s1, l1 ++ l2 ++ l3 ++ l4 ++ l5 ++ l6 ++ l7, r1⟩

end MonitorC

/-! ## main.c: handle_event -/

namespace MainC

def LOG_FILE : List Char := "monitor.log".toList
def CONFIG_FILE : List Char := "monitor.conf".toList

/-- Result of one main.c handle_event call: log lines appended and
directories passed to add_watch_recursive. -/
structure MainResult where
  logs : List (List Char)
  recursedInto : List (List Char)
deriving DecidableEq, Repr

/-- handle_event from main.c: drops nameless events, then the monitor's own
log/config file names and any name containing ".tmp" or ".swp", then applies
the extension filter, then logs one line per set flag among IN_CREATE,
IN_DELETE, IN_MODIFY, IN_MOVED_FROM, IN_MOVED_TO, IN_ATTRIB, IN_OPEN,
IN_CLOSE_WRITE. -/
def handle_event (exts : List (List Char)) (recMode : Bool)
    (ev : InotifyEvent) (watchPath : List Char) : MainResult :=
  match ev.name with
  | none => ⟨[], []⟩
  | some nm =>
    if nm == LOG_FILE || nm == CONFIG_FILE
        || containsSeq ".tmp".toList nm || containsSeq ".swp".toList nm then ⟨[], []⟩
    else if should_monitor_file exts nm = false then ⟨[], []⟩
    else
      let full := watchPath ++ '/' :: nm
      let l1 := if maskHas ev.mask IN_CREATE then [msg "Created: " full] else []
      let r1 := if recMode && (maskHas ev.mask IN_CREATE && maskHas ev.mask IN_ISDIR) then
                  [full] else []
      let l2 := if maskHas ev.mask IN_DELETE then [msg "Deleted: " full] else []
      let l3 := if maskHas ev.mask IN_MODIFY then [msg "Modified: " full] else []
      let l4 := if maskHas ev.mask IN_MOVED_FROM then [msg "Moved from: " full] else []
      let l5 := if maskHas ev.mask IN_MOVED_TO then [msg "Moved to: " full] else []
      let l6 := if maskHas ev.mask IN_ATTRIB then [msg "Attribute changed: " full] else []
      let l7 := if maskHas ev.mask IN_OPEN then [msg "Opened: " full] else []
      let l8 := if maskHas ev.mask IN_CLOSE_WRITE then [msg "Closed: " full] else []
      ⟨l1 ++ l2 ++ l3 ++ l4 ++ l5 ++ l6 ++ l7 ++ l8, r1⟩

end MainC

/-- The flag-to-template table realized by main.c handle_event: all eight
event kinds, with "Closed" triggered by IN_CLOSE_WRITE. -/
def mainKinds : List (Nat × String) :=
  [(IN_CREATE, "Created: "), (IN_DELETE, "Deleted: "), (IN_MODIFY, "Modified: "),
   (IN_MOVED_FROM, "Moved from: "), (IN_MOVED_TO, "Moved to: "),
   (IN_ATTRIB, "Attribute changed: "), (IN_OPEN, "Opened: "),
   (IN_CLOSE_WRITE, "Closed: ")]

/-- Claim C4: a kernel queue-overflow marker (mask IN_Q_OVERFLOW, wd -1,
no name) produces no log line at all in main.c handle_event and in
monitor.c handle_event_basic — the overflow condition is silently dropped,
with no "events may have been lost" entry.  (In the dispatch loops the
marker's wd -1 moreover matches no registered watch, so in main.c and in
basic/advanced monitor.c modes the handler is not even reached.) -/
theorem C4_overflow_marker_not_logged (exts : List (List Char)) (recMode : Bool)
    (watchPath : List Char) (t : Nat) :
    MainC.handle_event exts recMode ⟨-1, IN_Q_OVERFLOW, none⟩ watchPath = ⟨[], []⟩
    ∧ (MonitorC.handle_event_basic exts recMode t
        ⟨-1, IN_Q_OVERFLOW, none⟩ watchPath).logs = [] := by
  constructor
  · rfl
  · rfl

/-- Append of an if-singleton versus consing under the same condition. -/
theorem ite_singleton_append {α : Type} (b : Bool) (x : α) (xs ys : List α)
    (h : xs = ys) : (if b then [x] else []) ++ xs = if b then x :: ys else ys := by
  cases b <;> simp [h]

/-- Claim C9 counterexample: a surviving raw event whose only set flag is
IN_ATTRIB produces zero domain events in monitor.c handle_event_basic
(there is no IN_ATTRIB branch), where the claim requires exactly one
AttributeChanged event. -/
theorem C9_attrib_ignored_counterexample :
    (MonitorC.handle_event_basic [] true 0
        ⟨1, IN_ATTRIB, some "a.txt".toList⟩ "d".toList).logs = []
    ∧ should_monitor_file [] "a.txt".toList = true
    ∧ maskHas IN_ATTRIB IN_ATTRIB = true := by
  refine ⟨rfl, rfl, rfl⟩

/-- Claim C9 (amended): for a surviving named event, main.c handle_event
emits exactly one domain event per set flag, in table order, over all eight
kinds (Created, Deleted, Modified, MovedFrom, MovedTo, AttributeChanged,
Opened, Closed); monitor.c handle_event_basic does the same but only over
the seven kinds without AttributeChanged. -/
theorem C9_per_flag_events :
    (∀ (exts : List (List Char)) (recMode : Bool) (ev : InotifyEvent)
        (wp nm : List Char), ev.name = some nm →
      (nm == MainC.LOG_FILE || nm == MainC.CONFIG_FILE
        || containsSeq ".tmp".toList nm || containsSeq ".swp".toList nm) = false →
      should_monitor_file exts nm = true →
      (MainC.handle_event exts recMode ev wp).logs
        = (mainKinds.filter (fun k => maskHas ev.mask k.fst)).map
            (fun k => msg k.snd (wp ++ '/' :: nm)))
    ∧ (∀ (exts : List (List Char)) (recMode : Bool) (t : Nat) (ev : InotifyEvent)
        (wp nm : List Char), ev.name = some nm →
        should_monitor_file exts nm = true →
        (MonitorC.handle_event_basic exts recMode t ev wp).logs
          = (basicKinds.filter (fun k => maskHas ev.mask k.fst)).map
              (fun k => msg k.snd (wp ++ '/' :: nm))) := by
  constructor
  · rintro exts recMode ⟨wd, mask, name⟩ wp nm hname hexcl hmon
    subst hname
    simp only [MainC.handle_event, hexcl, Bool.false_eq_true, if_false]
    rw [if_neg (by simp [hmon])]
    simp only [mainKinds, List.filter_cons, List.filter_nil, List.map_nil, apply_ite
      (List.map (fun k : Nat × String => msg k.snd (wp ++ '/' :: nm))), List.map_cons,
      List.append_assoc]
    refine ite_singleton_append _ _ _ _ ?_
    refine ite_singleton_append _ _ _ _ ?_
    refine ite_singleton_append _ _ _ _ ?_
    refine ite_singleton_append _ _ _ _ ?_
    refine ite_singleton_append _ _ _ _ ?_
    refine ite_singleton_append _ _ _ _ ?_
    refine ite_singleton_append _ _ _ _ ?_
    cases h : maskHas mask IN_CLOSE_WRITE <;> simp
  · rintro exts recMode t ⟨wd, mask, name⟩ wp nm hname hmon
    subst hname
    simp only [MonitorC.handle_event_basic]
    rw [if_neg (by simp [hmon])]
    simp only [basicKinds, List.filter_cons, List.filter_nil, List.map_nil, apply_ite
      (List.map (fun k : Nat × String => msg k.snd (wp ++ '/' :: nm))), List.map_cons,
      List.append_assoc]
    refine ite_singleton_append _ _ _ _ ?_
    refine ite_singleton_append _ _ _ _ ?_
    refine ite_singleton_append _ _ _ _ ?_
    refine ite_singleton_append _ _ _ _ ?_
    refine ite_singleton_append _ _ _ _ ?_
    refine ite_singleton_append _ _ _ _ ?_
    cases h : maskHas mask IN_CLOSE <;> simp

/-- Concrete instance of C9 (amended): a raw event with IN_CREATE and
IN_MODIFY both set yields exactly the two corresponding domain events. -/
theorem C9_per_flag_events_witness :
    (MainC.handle_event [] true ⟨1, IN_CREATE ||| IN_MODIFY, some "b.txt".toList⟩
        "d".toList).logs
      = [msg "Created: " "d/b.txt".toList, msg "Modified: " "d/b.txt".toList] := by
  have h := C9_per_flag_events.1 [] true ⟨1, IN_CREATE ||| IN_MODIFY, some "b.txt".toList⟩
    "d".toList "b.txt".toList rfl (by decide) (by decide)
  rw [h]
  decide

/-- Claim C3 counterexample: an event whose filename the filter rejects
(allow-list {txt}, name "a.log") still increments the total-events counter
in monitor.c handle_event_basic — bookkeeping happens before filtering,
where the claim requires no counter increment at all. -/
theorem C3_rejected_event_counter_counterexample :
    (MonitorC.handle_event_basic ["txt".toList] true 0
        ⟨1, IN_CREATE, some "a.log".toList⟩ "d".toList).totalEvents = 1
    ∧ should_monitor_file ["txt".toList] "a.log".toList = false := by
  refine ⟨rfl, by decide⟩

/-- Claim C3 (amended): a raw event whose filename the filter rejects
produces no log line, no recursive watch installation and (in these two
handlers) no fingerprint-cache access, but the bookkeeping that precedes the
filter still runs: handle_event_basic increments total_events, and
handle_event_enhanced additionally bumps the per-watch event count and the
most-active-path tracking. -/
theorem C3_rejected_event_effects :
    (∀ (exts : List (List Char)) (recMode : Bool) (t : Nat) (ev : InotifyEvent)
        (wp nm : List Char), ev.name = some nm →
      should_monitor_file exts nm = false →
      MonitorC.handle_event_basic exts recMode t ev wp = ⟨t + 1, [], []⟩)
    ∧ (∀ (exts : List (List Char)) (recMode : Bool) (s : MonitorC.EnhancedState)
        (ev : InotifyEvent) (nm : List Char) (e : WatchEntry), ev.name = some nm →
      should_monitor_file exts nm = false →
      findWatchByWd ev.wd s.entries = some e →
      MonitorC.handle_event_enhanced exts recMode s ev
        = ⟨⟨bumpWatchByWd ev.wd s.entries, s.totalEvents + 1,
            (if e.eventCount + 1 > s.maxEventsPerPath then e.eventCount + 1
             else s.maxEventsPerPath),
            (if e.eventCount + 1 > s.maxEventsPerPath then e.path
             else s.mostActivePath)⟩, [], []⟩) := by
  constructor
  · rintro exts recMode t ⟨wd, mask, name⟩ wp nm hname hmon
    subst hname
    simp [MonitorC.handle_event_basic, hmon]
  · rintro exts recMode s ⟨wd, mask, name⟩ nm e hname hmon hfind
    subst hname
    simp only [MonitorC.handle_event_enhanced, hfind, hmon]
    simp

/-- Concrete instance of C3 (amended): the rejected event of the
counterexample leaves exactly the counter increment and nothing else. -/
theorem C3_rejected_event_effects_witness :
    MonitorC.handle_event_basic ["txt".toList] true 41
        ⟨1, IN_CREATE, some "a.log".toList⟩ "d".toList = ⟨42, [], []⟩ :=
  C3_rejected_event_effects.1 ["txt".toList] true 41
    ⟨1, IN_CREATE, some "a.log".toList⟩ "d".toList "a.log".toList rfl (by decide)

/-! ## Change-detection cache: check_file_changed (monitor.c) and
has_file_changed (advanced_monitor.c) -/

/-- file_hash_info_t.  fileSize = none models the field being left
unwritten because stat failed. -/
structure FileHashInfo where
  filepath : List Char
  hash : List Char
  lastModified : Nat
  fileSize : Option Nat
deriving DecidableEq, Repr

/-- First entry of the table whose filepath strcmp-equals fp (the linear
scan both functions perform). -/
def findHash (fp : List Char) : List FileHashInfo → Option FileHashInfo
  | [] => none
  | e :: rest => if e.filepath = fp then some e else findHash fp rest

/-- `if (stat(filepath, &st) == 0) info.file_size = st.st_size;`: overwrite
only when stat succeeded. -/
def statUpdate (st old : Option Nat) : Option Nat :=
  match st with
  | some s => some s
  | none => old

/-- Scan-and-update loop of check_file_changed (monitor.c): on the first
entry for fp, compare hashes, overwrite hash and last_modified only on
mismatch and return the comparison; if no entry matches, append a fresh
entry and return true. -/
def checkFileChangedGo (fp nh : List Char) (now : Nat) (st : Option Nat) :
    List FileHashInfo → Bool × List FileHashInfo
  | [] => (true, [⟨fp, nh, now, st⟩])
  | e :: rest =>
    if e.filepath = fp then
      if e.hash ≠ nh then (true, { e with hash := nh, lastModified := now } :: rest)
      else (false, e :: rest)
    else
      let r := checkFileChangedGo fp nh now st rest
      (r.fst, e :: r.snd)

/-- check_file_changed from monitor.c.  enableChecksum is the
enable_checksum global; hashRes is the result of calculate_file_hash
(none = the file could not be opened); now is time(NULL); st is the
st_size delivered by stat when it succeeds. -/
def check_file_changed (enableChecksum : Bool) (hashRes : Option (List Char))
    (now : Nat) (st : Option Nat) (fp : List Char) (hashes : List FileHashInfo) :
    Bool × List FileHashInfo :=
  if enableChecksum = false then (true, hashes)
  else
    match hashRes with
    | none => (true, hashes)
    | some nh => checkFileChangedGo fp nh now st hashes

/-- Scan-and-update loop of has_file_changed (advanced_monitor.c): same
contract as monitor.c's, except the hash is computed per branch (a failed
hash on a known entry leaves it untouched and reports changed) and a
mismatch also refreshes file_size when stat succeeds. -/
def hasFileChangedGo (fp : List Char) (hashRes : Option (List Char)) (now : Nat)
    (st : Option Nat) : List FileHashInfo → Bool × List FileHashInfo
  | [] =>
    match hashRes with
    | none => (true, [])
    | some nh => (true, [⟨fp, nh, now, st⟩])
  | e :: rest =>
    if e.filepath = fp then
      match hashRes with
      | none => (true, e :: rest)
      | some nh =>
        if e.hash ≠ nh then
          (true, { e with hash := nh, lastModified := now,
                          fileSize := statUpdate st e.fileSize } :: rest)
        else (false, e :: rest)
    else
      let r := hasFileChangedGo fp hashRes now st rest
      (r.fst, e :: r.snd)

/-- has_file_changed from advanced_monitor.c. -/
def has_file_changed (enableChecksum : Bool) (hashRes : Option (List Char))
    (now : Nat) (st : Option Nat) (fp : List Char) (hashes : List FileHashInfo) :
    Bool × List FileHashInfo :=
  if enableChecksum = false then (true, hashes)
  else hasFileChangedGo fp hashRes now st hashes

theorem findHash_eq_none_iff (fp : List Char) (hs : List FileHashInfo) :
    findHash fp hs = none ↔ ∀ e ∈ hs, e.filepath ≠ fp := by
  induction hs with
  | nil => simp [findHash]
  | cons a rest ih =>
    by_cases hfp : a.filepath = fp
    · simp [findHash, hfp]
    · simp [findHash, hfp, ih]

theorem findHash_eq_some_split (fp : List Char) (hs : List FileHashInfo)
    (e : FileHashInfo) (h : findHash fp hs = some e) :
    ∃ pre post, hs = pre ++ e :: post ∧ (∀ x ∈ pre, x.filepath ≠ fp)
      ∧ e.filepath = fp := by
  induction hs with
  | nil => simp [findHash] at h
  | cons a rest ih =>
    simp only [findHash] at h
    by_cases hfp : a.filepath = fp
    · rw [if_pos hfp] at h
      obtain rfl : a = e := by simpa using h
      exact ⟨[], rest, rfl, by simp, hfp⟩
    · rw [if_neg hfp] at h
      obtain ⟨pre, post, hsplit, hpre, he⟩ := ih h
      refine ⟨a :: pre, post, by simp [hsplit], ?_, he⟩
      intro x hx
      rcases List.mem_cons.mp hx with rfl | hx'
      · exact hfp
      · exact hpre x hx'

theorem checkGo_not_found (fp nh : List Char) (now : Nat) (st : Option Nat)
    (hs : List FileHashInfo) (h : ∀ e ∈ hs, e.filepath ≠ fp) :
    checkFileChangedGo fp nh now st hs = (true, hs ++ [⟨fp, nh, now, st⟩]) := by
  induction hs with
  | nil => simp [checkFileChangedGo]
  | cons a rest ih =>
    have ha : a.filepath ≠ fp := h a (by simp)
    have hrest := ih (fun e he => h e (by simp [he]))
    simp [checkFileChangedGo, ha, hrest]

theorem checkGo_found (fp nh : List Char) (now : Nat) (st : Option Nat)
    (pre post : List FileHashInfo) (e : FileHashInfo)
    (hpre : ∀ x ∈ pre, x.filepath ≠ fp) (he : e.filepath = fp) :
    checkFileChangedGo fp nh now st (pre ++ e :: post)
      = if e.hash ≠ nh then
          (true, pre ++ { e with hash := nh, lastModified := now } :: post)
        else (false, pre ++ e :: post) := by
  induction pre with
  | nil =>
    by_cases hh : e.hash ≠ nh <;> simp [checkFileChangedGo, he, hh]
  | cons a pre' ih =>
    have ha : a.filepath ≠ fp := hpre a (by simp)
    have hrest := ih (fun x hx => hpre x (by simp [hx]))
    by_cases hh : e.hash ≠ nh <;>
      simp [checkFileChangedGo, ha, hrest, hh]

theorem checkGo_stored (fp nh : List Char) (now : Nat) (st : Option Nat)
    (hs : List FileHashInfo) :
    ∃ e, findHash fp (checkFileChangedGo fp nh now st hs).snd = some e
      ∧ e.hash = nh := by
  induction hs with
  | nil => exact ⟨⟨fp, nh, now, st⟩, by simp [checkFileChangedGo, findHash], rfl⟩
  | cons a rest ih =>
    by_cases hfp : a.filepath = fp
    · by_cases hh : a.hash ≠ nh
      · exact ⟨{ a with hash := nh, lastModified := now },
          by simp [checkFileChangedGo, hfp, hh, findHash], rfl⟩
      · push_neg at hh
        exact ⟨a, by simp [checkFileChangedGo, hfp, hh, findHash], hh⟩
    · obtain ⟨e, hfind, hhash⟩ := ih
      exact ⟨e, by simp [checkFileChangedGo, hfp, findHash, hfind], hhash⟩

theorem hasGo_not_found (fp nh : List Char) (now : Nat) (st : Option Nat)
    (hs : List FileHashInfo) (h : ∀ e ∈ hs, e.filepath ≠ fp) :
    hasFileChangedGo fp (some nh) now st hs = (true, hs ++ [⟨fp, nh, now, st⟩]) := by
  induction hs with
  | nil => simp [hasFileChangedGo]
  | cons a rest ih =>
    have ha : a.filepath ≠ fp := h a (by simp)
    have hrest := ih (fun e he => h e (by simp [he]))
    simp [hasFileChangedGo, ha, hrest]

theorem hasGo_found (fp nh : List Char) (now : Nat) (st : Option Nat)
    (pre post : List FileHashInfo) (e : FileHashInfo)
    (hpre : ∀ x ∈ pre, x.filepath ≠ fp) (he : e.filepath = fp) :
    hasFileChangedGo fp (some nh) now st (pre ++ e :: post)
      = if e.hash ≠ nh then
          (true, pre ++ { e with hash := nh, lastModified := now,
                                 fileSize := statUpdate st e.fileSize } :: post)
        else (false, pre ++ e :: post) := by
  induction pre with
  | nil =>
    by_cases hh : e.hash ≠ nh <;> simp [hasFileChangedGo, he, hh]
  | cons a pre' ih =>
    have ha : a.filepath ≠ fp := hpre a (by simp)
    have hrest := ih (fun x hx => hpre x (by simp [hx]))
    by_cases hh : e.hash ≠ nh <;>
      simp [hasFileChangedGo, ha, hrest, hh]

theorem hasGo_stored (fp nh : List Char) (now : Nat) (st : Option Nat)
    (hs : List FileHashInfo) :
    ∃ e, findHash fp (hasFileChangedGo fp (some nh) now st hs).snd = some e
      ∧ e.hash = nh := by
  induction hs with
  | nil => exact ⟨⟨fp, nh, now, st⟩, by simp [hasFileChangedGo, findHash], rfl⟩
  | cons a rest ih =>
    by_cases hfp : a.filepath = fp
    · by_cases hh : a.hash ≠ nh
      · exact ⟨{ a with hash := nh, lastModified := now,
                        fileSize := statUpdate st a.fileSize },
          by simp [hasFileChangedGo, hfp, hh, findHash], rfl⟩
      · push_neg at hh
        exact ⟨a, by simp [hasFileChangedGo, hfp, hh, findHash], hh⟩
    · obtain ⟨e, hfind, hhash⟩ := ih
      exact ⟨e, by simp [hasFileChangedGo, hfp, findHash, hfind], hhash⟩

/-- Claim C1: with checksums enabled and a computable digest, the first
change-detection call for a path stores the digest and returns true; a
later call returns true exactly when the newly computed digest differs from
the stored one, overwriting the stored digest on mismatch and leaving the
table untouched on match; and immediately repeating a call with the same
digest yields false without further change — for both check_file_changed
(monitor.c) and has_file_changed (advanced_monitor.c). -/
theorem C1_change_detection_contract (now now2 : Nat) (st st2 : Option Nat)
    (fp nh : List Char) (hs : List FileHashInfo) :
    (findHash fp hs = none →
      check_file_changed true (some nh) now st fp hs
        = (true, hs ++ [⟨fp, nh, now, st⟩])
      ∧ has_file_changed true (some nh) now st fp hs
        = (true, hs ++ [⟨fp, nh, now, st⟩]))
    ∧ (∀ e, findHash fp hs = some e →
        ((check_file_changed true (some nh) now st fp hs).fst = true ↔ e.hash ≠ nh)
        ∧ ((has_file_changed true (some nh) now st fp hs).fst = true ↔ e.hash ≠ nh))
    ∧ (∀ e, findHash fp hs = some e → e.hash = nh →
        check_file_changed true (some nh) now st fp hs = (false, hs)
        ∧ has_file_changed true (some nh) now st fp hs = (false, hs))
    ∧ (∀ e pre post, hs = pre ++ e :: post → (∀ x ∈ pre, x.filepath ≠ fp) →
        e.filepath = fp → e.hash ≠ nh →
        check_file_changed true (some nh) now st fp hs
          = (true, pre ++ { e with hash := nh, lastModified := now } :: post)
        ∧ has_file_changed true (some nh) now st fp hs
          = (true, pre ++ { e with hash := nh, lastModified := now,
                                   fileSize := statUpdate st e.fileSize } :: post))
    ∧ check_file_changed true (some nh) now2 st2 fp
        (check_file_changed true (some nh) now st fp hs).snd
        = (false, (check_file_changed true (some nh) now st fp hs).snd)
    ∧ has_file_changed true (some nh) now2 st2 fp
        (has_file_changed true (some nh) now st fp hs).snd
        = (false, (has_file_changed true (some nh) now st fp hs).snd) := by
  refine ⟨?_, ?_, ?_, ?_, ?_, ?_⟩
  · intro h
    have hall := (findHash_eq_none_iff fp hs).mp h
    exact ⟨checkGo_not_found fp nh now st hs hall, hasGo_not_found fp nh now st hs hall⟩
  · intro e he
    obtain ⟨pre, post, hsplit, hpre, hefp⟩ := findHash_eq_some_split fp hs e he
    subst hsplit
    constructor
    · rw [show check_file_changed true (some nh) now st fp (pre ++ e :: post)
          = checkFileChangedGo fp nh now st (pre ++ e :: post) from rfl,
        checkGo_found fp nh now st pre post e hpre hefp]
      by_cases hh : e.hash ≠ nh <;> simp [hh]
    · rw [show has_file_changed true (some nh) now st fp (pre ++ e :: post)
          = hasFileChangedGo fp (some nh) now st (pre ++ e :: post) from rfl,
        hasGo_found fp nh now st pre post e hpre hefp]
      by_cases hh : e.hash ≠ nh <;> simp [hh]
  · intro e he heq
    obtain ⟨pre, post, hsplit, hpre, hefp⟩ := findHash_eq_some_split fp hs e he
    subst hsplit
    have h1 := checkGo_found fp nh now st pre post e hpre hefp
    have h2 := hasGo_found fp nh now st pre post e hpre hefp
    rw [if_neg (not_not_intro heq)] at h1 h2
    exact ⟨h1, h2⟩
  · intro e pre post hsplit hpre hefp hh
    subst hsplit
    have h1 := checkGo_found fp nh now st pre post e hpre hefp
    have h2 := hasGo_found fp nh now st pre post e hpre hefp
    rw [if_pos hh] at h1 h2
    exact ⟨h1, h2⟩
  · obtain ⟨e, hfind, hhash⟩ := checkGo_stored fp nh now st hs
    obtain ⟨pre, post, hsplit, hpre, hefp⟩ := findHash_eq_some_split fp _ e hfind
    have h1 := checkGo_found fp nh now2 st2 pre post e hpre hefp
    rw [if_neg (not_not_intro hhash)] at h1
    show checkFileChangedGo fp nh now2 st2 (checkFileChangedGo fp nh now st hs).snd
      = (false, (checkFileChangedGo fp nh now st hs).snd)
    rw [hsplit]
    exact h1
  · obtain ⟨e, hfind, hhash⟩ := hasGo_stored fp nh now st hs
    obtain ⟨pre, post, hsplit, hpre, hefp⟩ := findHash_eq_some_split fp _ e hfind
    have h1 := hasGo_found fp nh now2 st2 pre post e hpre hefp
    rw [if_neg (not_not_intro hhash)] at h1
    show hasFileChangedGo fp (some nh) now2 st2
        (hasFileChangedGo fp (some nh) now st hs).snd
      = (false, (hasFileChangedGo fp (some nh) now st hs).snd)
    rw [hsplit]
    exact h1

/-- Concrete instance of C1: on an empty table the first call stores the
digest and reports a change; the immediately following call with the same
digest reports no change and leaves the entry untouched. -/
theorem C1_change_detection_witness :
    check_file_changed true (some "h1".toList) 10 (some 3) "f.txt".toList []
      = (true, [⟨"f.txt".toList, "h1".toList, 10, some 3⟩])
    ∧ check_file_changed true (some "h1".toList) 11 (some 3) "f.txt".toList
        [⟨"f.txt".toList, "h1".toList, 10, some 3⟩]
      = (false, [⟨"f.txt".toList, "h1".toList, 10, some 3⟩]) := by
  constructor
  · exact ((C1_change_detection_contract 10 11 (some 3) (some 3)
      "f.txt".toList "h1".toList []).1 rfl).1
  · exact ((C1_change_detection_contract 11 12 (some 3) (some 3) "f.txt".toList
      "h1".toList [⟨"f.txt".toList, "h1".toList, 10, some 3⟩]).2.2.1
      ⟨"f.txt".toList, "h1".toList, 10, some 3⟩ (by decide) rfl).1

/-! ## advanced_monitor.c pattern rules: match_patterns -/

/-- pattern_rule_t: the pattern text, the action tag as in the source
(0 = exclude, 1 = include, 2 = alert) and the compiled regex modelled by
its match function (regexec(...) == 0). -/
structure PatternRule where
  pattern : List Char
  action : Nat
  regexMatch : List Char → Bool

/-- The log line produced by a matching alert rule. -/
def alertMsg (p fn : List Char) : List Char :=
  "ALERT: Pattern matched ".toList ++ p ++ " for file: ".toList ++ fn

/-- match_patterns from advanced_monitor.c: walks the rules in registration
order; on the first regex match with action 0 it rejects, with action 1 it
accepts, with action 2 it logs an alert notice and accepts (returning
immediately in every one of the three cases); a matching rule with any
other action tag falls through; no matching rule, or no rules at all,
accepts.  Returns (accept?, alert log lines emitted). -/
def match_patterns (rules : List PatternRule) (fn : List Char) :
    Bool × List (List Char) :=
  match rules with
  | [] => (true, [])
  | r :: rest =>
    if r.regexMatch fn then
      if r.action = 0 then (false, [])
      else if r.action = 1 then (true, [])
      else if r.action = 2 then (true, [alertMsg r.pattern fn])
      else match_patterns rest fn
    else match_patterns rest fn

/-- Modelled from the spec: the pattern layer as section 4.3 of the spec
words it, in which an alert match only logs its notice and then falls
through to the remaining rules, never deciding acceptance on its own.  This
definition exists solely to compare the spec reading against
match_patterns, which is transcribed from the source. -/
def match_patterns_spec_fallthrough (rules : List PatternRule) (fn : List Char) :
    Bool × List (List Char) :=
  match rules with
  | [] => (true, [])
  | r :: rest =>
    if r.regexMatch fn then
      if r.action = 0 then (false, [])
      else if r.action = 1 then (true, [])
      else if r.action = 2 then
        let rec1 := match_patterns_spec_fallthrough rest fn
        (rec1.fst, alertMsg r.pattern fn :: rec1.snd)
      else match_patterns_spec_fallthrough rest fn
    else match_patterns_spec_fallthrough rest fn

/-- Claim C2 counterexample: with the rule list [alert .*, exclude .*]
(both matching everything) the source's match_patterns accepts the filename
— the alert short-circuits with accept — whereas the claimed fall-through
semantics would reach the exclude rule and reject. -/
theorem C2_alert_shortcircuit_counterexample :
    (match_patterns
      [⟨"all".toList, 2, fun _ => true⟩, ⟨"all".toList, 0, fun _ => true⟩]
      "a.txt".toList).fst = true
    ∧ (match_patterns_spec_fallthrough
      [⟨"all".toList, 2, fun _ => true⟩, ⟨"all".toList, 0, fun _ => true⟩]
      "a.txt".toList).fst = false := by
  exact ⟨rfl, rfl⟩

/-- A rule that decides the result of match_patterns: it matches the
filename and carries one of the three recognized action tags. -/
def decidingRule (fn : List Char) (r : PatternRule) : Bool :=
  r.regexMatch fn && (r.action == 0 || r.action == 1 || r.action == 2)

/-- Claim C2 (amended): match_patterns evaluates rules in registration
order and the first matching rule with a recognized action decides the
outcome — exclude rejects, include accepts, alert logs one notice and
accepts immediately (it short-circuits instead of falling through); when no
rule decides (in particular with no rules at all) the filename is
accepted with no alert log. -/
theorem C2_first_match_decides (rules : List PatternRule) (fn : List Char) :
    (match_patterns rules fn).fst
      = ((rules.find? (decidingRule fn)).all (fun r => r.action != 0))
    ∧ (match_patterns rules fn).snd
      = (match rules.find? (decidingRule fn) with
         | some r => if r.action = 2 then [alertMsg r.pattern fn] else []
         | none => []) := by
  induction rules with
  | nil => exact ⟨rfl, rfl⟩
  | cons r rest ih =>
    by_cases hm : r.regexMatch fn
    · by_cases h0 : r.action = 0
      · constructor <;>
          simp [match_patterns, List.find?, decidingRule, hm, h0]
      · by_cases h1 : r.action = 1
        · constructor <;>
            simp [match_patterns, List.find?, decidingRule, hm, h0, h1]
        · by_cases h2 : r.action = 2
          · constructor <;>
              simp [match_patterns, List.find?, decidingRule, hm, h0, h1, h2]
          · have hnd : decidingRule fn r = false := by
              simp [decidingRule, hm, h0, h1, h2]
            constructor <;>
              simp [match_patterns, List.find?, hnd, hm, h0, h1, h2, ih.1, ih.2]
    · have hnd : decidingRule fn r = false := by
        simp [decidingRule, hm]
      constructor <;>
        simp [match_patterns, List.find?, hnd, hm, ih.1, ih.2]

/-! ## monitor.c enhanced mode: watch manager growth (add_watch_dynamic) -/

def INITIAL_WATCH_CAPACITY : Nat := 1024
def WATCH_GROWTH_FACTOR : Nat := 2

/-- The watch_manager_t fields together with the two stats counters
add_watch_dynamic touches (stats.watch_limit_hits and
stats.memory_reallocations); entries.length plays the role of count. -/
structure RegistryState where
  entries : List WatchEntry
  capacity : Nat
  watchLimitHits : Nat
  memoryReallocations : Nat
deriving DecidableEq, Repr

/-- init_watch_manager: empty table at the initial capacity. -/
def init_watch_manager : RegistryState :=
  ⟨[], INITIAL_WATCH_CAPACITY, 0, 0⟩

/-- The OS-dependent outcomes one add_watch_dynamic call consumes: whether
realloc succeeds, the wd returned by inotify_add_watch (none = -1), and
time(NULL). -/
structure AddInput where
  reallocOk : Bool
  wdRes : Option Int
  now : Nat
  path : List Char

/-- Result of one add_watch_dynamic call. -/
structure AddResult where
  wd : Option Int
  st : RegistryState
  logs : List (List Char)

/-- Tail of add_watch_dynamic after the capacity check: ask inotify for a
watch and on success append the entry. -/
def addWatchInsert (inp : AddInput) (s : RegistryState) (logs : List (List Char)) :
    AddResult :=
  match inp.wdRes with
  | none => ⟨none, s, logs ++ [msg "[ERROR] Failed to add watch for " inp.path]⟩
  | some wd =>
    ⟨some wd,
     { s with entries := s.entries ++ [⟨wd, inp.path, inp.now, 0⟩] },
     logs ++ [msg "[WATCH] Added: " inp.path]⟩

/-- add_watch_dynamic from monitor.c: when the table is full, first grow
the capacity by WATCH_GROWTH_FACTOR and bump the reallocation counter (a
failed realloc bumps watch_limit_hits and aborts the call); then register
the watch and append the entry. -/
def add_watch_dynamic (inp : AddInput) (s : RegistryState) : AddResult :=
  if s.entries.length ≥ s.capacity then
    if inp.reallocOk = false then
      ⟨none, { s with watchLimitHits := s.watchLimitHits + 1 },
       [msg "[ERROR] Failed to expand watch manager capacity" []]⟩
    else
      addWatchInsert inp
        { s with capacity := s.capacity * WATCH_GROWTH_FACTOR,
                 memoryReallocations := s.memoryReallocations + 1 }
        [msg "[INFO] Watch manager expanded" []]
  else
    addWatchInsert inp s []

/-- A whole sequence of register operations. -/
def runAddWatches (ops : List AddInput) (s : RegistryState) : RegistryState :=
  ops.foldl (fun st inp => (add_watch_dynamic inp st).st) s

theorem addWatchInsert_capacity (inp : AddInput) (s : RegistryState)
    (logs : List (List Char)) :
    (addWatchInsert inp s logs).st.capacity = s.capacity
    ∧ (addWatchInsert inp s logs).st.memoryReallocations = s.memoryReallocations := by
  cases h : inp.wdRes <;> simp [addWatchInsert, h]

theorem add_watch_dynamic_capacity_le (inp : AddInput) (s : RegistryState) :
    s.capacity ≤ (add_watch_dynamic inp s).st.capacity := by
  unfold add_watch_dynamic
  by_cases hfull : s.entries.length ≥ s.capacity
  · rw [if_pos hfull]
    by_cases hre : inp.reallocOk = false
    · simp [hre]
    · rw [if_neg hre]
      rw [(addWatchInsert_capacity inp _ _).1]
      simp [WATCH_GROWTH_FACTOR]
      omega
  · rw [if_neg hfull, (addWatchInsert_capacity inp s []).1]

/-- Claim C5: across any sequence of register operations the watch
registry's capacity never shrinks; whenever an insert finds the table full
and realloc succeeds, the capacity is multiplied by WATCH_GROWTH_FACTOR
(= 2, so the growth is at least twofold), the reallocation counter is
bumped exactly once and the registration itself still proceeds (the entry
is appended on inotify success rather than the call failing at a fixed
cap); an insert that finds room changes neither capacity nor the
reallocation counter. -/
theorem C5_watch_capacity_growth :
    (∀ (ops : List AddInput) (s : RegistryState),
      s.capacity ≤ (runAddWatches ops s).capacity)
    ∧ (∀ (inp : AddInput) (s : RegistryState),
        s.entries.length ≥ s.capacity → inp.reallocOk = true →
        (add_watch_dynamic inp s).st.capacity = s.capacity * WATCH_GROWTH_FACTOR
        ∧ WATCH_GROWTH_FACTOR = 2
        ∧ (add_watch_dynamic inp s).st.memoryReallocations
            = s.memoryReallocations + 1
        ∧ (∀ wd, inp.wdRes = some wd →
            (add_watch_dynamic inp s).st.entries
              = s.entries ++ [⟨wd, inp.path, inp.now, 0⟩]))
    ∧ (∀ (inp : AddInput) (s : RegistryState),
        s.entries.length < s.capacity →
        (add_watch_dynamic inp s).st.capacity = s.capacity
        ∧ (add_watch_dynamic inp s).st.memoryReallocations
            = s.memoryReallocations) := by
  refine ⟨?_, ?_, ?_⟩
  · intro ops
    induction ops with
    | nil => intro s; exact le_refl _
    | cons inp rest ih =>
      intro s
      calc s.capacity ≤ (add_watch_dynamic inp s).st.capacity :=
            add_watch_dynamic_capacity_le inp s
        _ ≤ (runAddWatches rest ((add_watch_dynamic inp s).st)).capacity :=
            ih ((add_watch_dynamic inp s).st)
  · intro inp s hfull hre
    have hre' : ¬inp.reallocOk = false := by simp [hre]
    unfold add_watch_dynamic
    rw [if_pos hfull, if_neg hre']
    refine ⟨(addWatchInsert_capacity inp _ _).1, rfl,
      (addWatchInsert_capacity inp _ _).2, ?_⟩
    intro wd hwd
    simp [addWatchInsert, hwd]
  · intro inp s hroom
    have hfull : ¬s.entries.length ≥ s.capacity := by omega
    unfold add_watch_dynamic
    rw [if_neg hfull]
    exact ⟨(addWatchInsert_capacity inp s []).1, (addWatchInsert_capacity inp s []).2⟩

/-- Concrete instance of C5: inserting into a full one-slot registry
doubles the capacity to 2, counts one reallocation and still appends the
entry. -/
theorem C5_watch_capacity_growth_witness :
    (add_watch_dynamic ⟨true, some 7, 5, "p".toList⟩
        ⟨[⟨3, "q".toList, 1, 0⟩], 1, 0, 0⟩).st.capacity = 1 * WATCH_GROWTH_FACTOR
    ∧ (add_watch_dynamic ⟨true, some 7, 5, "p".toList⟩
        ⟨[⟨3, "q".toList, 1, 0⟩], 1, 0, 0⟩).st.memoryReallocations = 0 + 1
    ∧ (add_watch_dynamic ⟨true, some 7, 5, "p".toList⟩
        ⟨[⟨3, "q".toList, 1, 0⟩], 1, 0, 0⟩).st.entries
      = [⟨3, "q".toList, 1, 0⟩] ++ [⟨7, "p".toList, 5, 0⟩] := by
  have h := C5_watch_capacity_growth.2.1 ⟨true, some 7, 5, "p".toList⟩
    ⟨[⟨3, "q".toList, 1, 0⟩], 1, 0, 0⟩ (by decide) rfl
  exact ⟨h.1, h.2.2.1, h.2.2.2 7 rfl⟩

/-! ## monitor.c advanced mode: log rotation (rotate_log_file / log_event) -/

def MAX_LOG_SIZE_MB : Nat := 50
def MAX_LOG_FILES : Nat := 10

/-- The loop indices MAX_LOG_FILES-1 down to 1 of rotate_log_file. -/
def countdown : Nat → List Nat
  | 0 => []
  | k + 1 => (k + 1) :: countdown k

/-- unlink of generation file i. -/
def fsUnlink (i : Nat) (g : Nat → Option Nat) : Nat → Option Nat :=
  fun j => if j = i then none else g j

/-- rename of generation file src onto dst (only invoked after access(src)
succeeded; dst is overwritten, src disappears). -/
def fsRename (src dst : Nat) (g : Nat → Option Nat) : Nat → Option Nat :=
  fun j => if j = dst then g src else if j = src then none else g j

/-- The shifting loop of rotate_log_file over the generation files
(keyed by suffix i of monitor.log.i): for i from MAX_LOG_FILES-1 down to 1,
if generation i-1 exists then at i = MAX_LOG_FILES-1 delete it, otherwise
rename it to generation i. -/
def rotateShift : List Nat → (Nat → Option Nat) → (Nat → Option Nat)
  | [], g => g
  | i :: rest, g =>
    rotateShift rest
      (if (g (i - 1)).isSome then
        (if i = MAX_LOG_FILES - 1 then fsUnlink (i - 1) g else fsRename (i - 1) i g)
      else g)

/-- The log-file state rotate_log_file and log_event manipulate.  gens j is
the content identity of monitor.log.j (none = the file does not exist),
gzGens j likewise for monitor.log.j.gz, current the identity of monitor.log
itself; nextId supplies the identity of the freshly reopened current file.
curSize is the byte size ftell reports for the current file. -/
structure LogFS where
  gens : Nat → Option Nat
  gzGens : Nat → Option Nat
  current : Option Nat
  curSize : Nat
  rotations : Nat
  nextId : Nat

/-- rotate_log_file from monitor.c: shift the retained generations, rename
the current log to generation 0 (when compression is on, compress_old_log
then replaces generation 0 by its .gz sibling), and reopen a fresh current
log.  The single "rotated successfully" notice written into the fresh file
is far below the 50 MiB ceiling, so its size check cannot re-enter rotation
and the fresh size is modelled as 0. -/
def rotate_log_file (compress : Bool) (fs : LogFS) : LogFS :=
  let g1 := rotateShift (countdown (MAX_LOG_FILES - 1)) fs.gens
  let g2 : Nat → Option Nat :=
    if fs.current.isSome then fun j => if j = 0 then fs.current else g1 j else g1
  let g3 : Nat → Option Nat :=
    if compress ∧ (g2 0).isSome then fsUnlink 0 g2 else g2
  let gz3 : Nat → Option Nat :=
    if compress ∧ (g2 0).isSome then fun j => if j = 0 then g2 0 else fs.gzGens j
    else fs.gzGens
  { gens := g3, gzGens := gz3, current := some fs.nextId, curSize := 0,
    rotations := fs.rotations + 1, nextId := fs.nextId + 1 }

/-- The size check log_event performs in advanced mode after appending and
flushing a line of msgLen bytes: rotate exactly when the size now exceeds
MAX_LOG_SIZE_MB MiB. -/
def log_event_adv (msgLen : Nat) (compress : Bool) (fs : LogFS) : LogFS :=
  let fs1 : LogFS := { fs with curSize := fs.curSize + msgLen }
  if fs1.curSize > MAX_LOG_SIZE_MB * 1024 * 1024 then rotate_log_file compress fs1
  else fs1

theorem rotateStep_rename (i : Nat) (h9 : ¬i = MAX_LOG_FILES - 1)
    (g : Nat → Option Nat) (hgi : g i = none) :
    (if (g (i - 1)).isSome then
      (if i = MAX_LOG_FILES - 1 then fsUnlink (i - 1) g else fsRename (i - 1) i g)
    else g)
      = fun j => if j = i then g (i - 1) else if j = i - 1 then none else g j := by
  by_cases hs : (g (i - 1)).isSome
  · rw [if_pos hs, if_neg h9]
    rfl
  · rw [if_neg hs]
    have hnone : g (i - 1) = none := Option.not_isSome_iff_eq_none.mp hs
    funext j
    by_cases hj : j = i
    · subst hj
      rw [if_pos rfl, hgi, hnone]
    · rw [if_neg hj]
      by_cases hj' : j = i - 1
      · subst hj'
        rw [if_pos rfl, hnone]
      · rw [if_neg hj']

theorem rotateStep_unlink (g : Nat → Option Nat) :
    (if (g (MAX_LOG_FILES - 1 - 1)).isSome then
      (if MAX_LOG_FILES - 1 = MAX_LOG_FILES - 1 then
        fsUnlink (MAX_LOG_FILES - 1 - 1) g
      else fsRename (MAX_LOG_FILES - 1 - 1) (MAX_LOG_FILES - 1) g)
    else g)
      = fun j => if j = MAX_LOG_FILES - 1 - 1 then none else g j := by
  by_cases hs : (g (MAX_LOG_FILES - 1 - 1)).isSome
  · rw [if_pos hs, if_pos rfl]
    rfl
  · rw [if_neg hs]
    have hnone : g (MAX_LOG_FILES - 1 - 1) = none :=
      Option.not_isSome_iff_eq_none.mp hs
    funext j
    by_cases hj : j = MAX_LOG_FILES - 1 - 1
    · subst hj
      rw [if_pos rfl, hnone]
    · rw [if_neg hj]

theorem rotateShift_low (i : Nat) (hi : i < MAX_LOG_FILES - 1) :
    ∀ (g : Nat → Option Nat), g i = none →
    ∀ j, rotateShift (countdown i) g j
      = if j = 0 then none else if j ≤ i then g (j - 1) else g j := by
  induction i with
  | zero =>
    intro g hg j
    by_cases hj : j = 0
    · subst hj
      simpa [countdown, rotateShift] using hg
    · simp [countdown, rotateShift, hj]
  | succ i ih =>
    intro g hg j
    rw [show countdown (i + 1) = (i + 1) :: countdown i from rfl, rotateShift,
      rotateStep_rename (i + 1) (by omega) g hg]
    simp only [Nat.add_sub_cancel]
    have hg' : (fun j => if j = i + 1 then g i else if j = i then none else g j) i
        = none := by
      simp
    rw [ih (by omega) _ hg' j]
    by_cases hj0 : j = 0
    · rw [if_pos hj0, if_pos hj0]
    · rw [if_neg hj0, if_neg hj0]
      by_cases hji : j ≤ i
      · rw [if_pos hji, if_pos (by omega : j ≤ i + 1)]
        rw [if_neg (by omega : ¬j - 1 = i + 1), if_neg (by omega : ¬j - 1 = i)]
      · rw [if_neg hji]
        by_cases hj1 : j = i + 1
        · rw [if_pos (by omega : j ≤ i + 1), if_pos hj1,
            show j - 1 = i from by omega]
        · rw [if_neg (by omega : ¬j ≤ i + 1), if_neg hj1, if_neg (by omega : ¬j = i)]

theorem rotateShift_spec (g : Nat → Option Nat) (j : Nat) :
    rotateShift (countdown (MAX_LOG_FILES - 1)) g j
      = if j = 0 then none
        else if j ≤ MAX_LOG_FILES - 2 then g (j - 1) else g j := by
  rw [show countdown (MAX_LOG_FILES - 1)
      = (MAX_LOG_FILES - 1) :: countdown (MAX_LOG_FILES - 2) from rfl, rotateShift,
    rotateStep_unlink g]
  have hg' : (fun j => if j = MAX_LOG_FILES - 1 - 1 then none else g j)
      (MAX_LOG_FILES - 2) = none := by simp [MAX_LOG_FILES]
  rw [rotateShift_low (MAX_LOG_FILES - 2) (by simp [MAX_LOG_FILES]) _ hg' j]
  by_cases hj0 : j = 0
  · rw [if_pos hj0, if_pos hj0]
  · rw [if_neg hj0, if_neg hj0]
    by_cases hji : j ≤ MAX_LOG_FILES - 2
    · rw [if_pos hji, if_pos hji,
        if_neg (by simp [MAX_LOG_FILES] at hji ⊢; omega : ¬j - 1 = MAX_LOG_FILES - 1 - 1)]
    · rw [if_neg hji, if_neg hji,
        if_neg (by simp [MAX_LOG_FILES] at hji ⊢; omega : ¬j = MAX_LOG_FILES - 1 - 1)]

theorem rotate_gens_spec (fs : LogFS) (j : Nat) :
    (rotate_log_file false fs).gens j
      = if j = 0 then fs.current
        else if j ≤ MAX_LOG_FILES - 2 then fs.gens (j - 1) else fs.gens j := by
  show (let g1 := rotateShift (countdown (MAX_LOG_FILES - 1)) fs.gens
        let g2 : Nat → Option Nat :=
          if fs.current.isSome then fun j => if j = 0 then fs.current else g1 j else g1
        let g3 : Nat → Option Nat :=
          if False ∧ (g2 0).isSome then fsUnlink 0 g2 else g2
        g3 j) = _
  simp only [false_and, if_false]
  by_cases hc : fs.current.isSome
  · rw [if_pos hc]
    by_cases hj0 : j = 0
    · simp [hj0]
    · simp only [hj0, if_neg hj0, if_false]
      rw [rotateShift_spec fs.gens j, if_neg hj0]
  · rw [if_neg hc]
    have hcn : fs.current = none := Option.not_isSome_iff_eq_none.mp hc
    rw [rotateShift_spec fs.gens j]
    by_cases hj0 : j = 0
    · rw [if_pos hj0, if_pos hj0, hcn]
    · rw [if_neg hj0, if_neg hj0]

theorem rotate_current (compress : Bool) (fs : LogFS) :
    (rotate_log_file compress fs).current = some fs.nextId := rfl

theorem rotate_nextId (compress : Bool) (fs : LogFS) :
    (rotate_log_file compress fs).nextId = fs.nextId + 1 := rfl

theorem rotate_rotations (compress : Bool) (fs : LogFS) :
    (rotate_log_file compress fs).rotations = fs.rotations + 1 := rfl

/-- A concrete log state: one retained generation monitor.log.0 (content
id 5), a current log (content id 6), no compressed generations. -/
def demoStart : LogFS :=
  ⟨fun j => if j = 0 then some 5 else none, fun _ => none, some 6, 0, 0, 7⟩

/-- demoStart after eight rotations. -/
def demoAfterEight : LogFS :=
  rotate_log_file false (rotate_log_file false (rotate_log_file false
    (rotate_log_file false (rotate_log_file false (rotate_log_file false
      (rotate_log_file false (rotate_log_file false demoStart)))))))

/-- demoStart after nine rotations. -/
def demoAfterNine : LogFS := rotate_log_file false demoAfterEight

/-- Claim C8: an append that pushes the log size past the 50 MiB ceiling
triggers exactly one rotation (and one below it triggers none); a rotation
renames the current log into generation slot 0, shifts every retained
generation j ≤ MAX_LOG_FILES-2 down to slot j+1, and never creates a slot
at MAX_LOG_FILES-1 or beyond — so generation suffixes stay within
.0 .. .(MAX_LOG_FILES-2) — and the generation in the last retained slot is
discarded: in the concrete run, the content initially in .0 survives eight
rotations (reaching the last slot) and after the ninth rotation exists in
no generation slot at all. -/
theorem C8_log_rotation :
    (∀ (n : Nat) (compress : Bool) (fs : LogFS),
      (log_event_adv n compress fs).rotations
        = if fs.curSize + n > MAX_LOG_SIZE_MB * 1024 * 1024 then fs.rotations + 1
          else fs.rotations)
    ∧ (∀ (fs : LogFS) (j : Nat), j ≠ 0 → j ≤ MAX_LOG_FILES - 2 →
        (rotate_log_file false fs).gens j = fs.gens (j - 1))
    ∧ (∀ fs : LogFS, (rotate_log_file false fs).gens 0 = fs.current)
    ∧ (∀ (fs : LogFS) (j : Nat), MAX_LOG_FILES - 1 ≤ j →
        (rotate_log_file false fs).gens j = fs.gens j)
    ∧ demoStart.gens 0 = some 5
    ∧ demoAfterEight.gens (MAX_LOG_FILES - 2) = some 5
    ∧ (∀ j, demoAfterNine.gens j ≠ some 5) := by
  refine ⟨?_, ?_, ?_, ?_, rfl, ?_, ?_⟩
  · intro n compress fs
    by_cases h : fs.curSize + n > MAX_LOG_SIZE_MB * 1024 * 1024 <;>
      simp [log_event_adv, rotate_log_file, h]
  · intro fs j hj0 hji
    rw [rotate_gens_spec, if_neg hj0, if_pos hji]
  · intro fs
    rw [rotate_gens_spec]
    simp
  · intro fs j hj
    simp only [MAX_LOG_FILES] at hj
    rw [rotate_gens_spec, if_neg (by omega : ¬j = 0),
      if_neg (by simp [MAX_LOG_FILES]; omega : ¬j ≤ MAX_LOG_FILES - 2)]
  · simp [demoAfterEight, rotate_gens_spec, rotate_current, rotate_nextId,
      demoStart, MAX_LOG_FILES]
  · intro j
    rcases Nat.lt_or_ge j 9 with hj | hj
    · interval_cases j <;>
        simp [demoAfterNine, demoAfterEight, rotate_gens_spec, rotate_current,
          rotate_nextId, demoStart, MAX_LOG_FILES]
    · have hhigh : ∀ fs : LogFS, (rotate_log_file false fs).gens j = fs.gens j := by
        intro fs
        rw [rotate_gens_spec, if_neg (by omega : ¬j = 0),
          if_neg (by simp [MAX_LOG_FILES]; omega : ¬j ≤ MAX_LOG_FILES - 2)]
      simp only [demoAfterNine, demoAfterEight]
      rw [hhigh, hhigh, hhigh, hhigh, hhigh, hhigh, hhigh, hhigh, hhigh]
      have hj0 : ¬j = 0 := by omega
      simp [demoStart, hj0]

/-- Concrete instance of C8: one rotation moves the current log into slot 0
and shifts slot 0 to slot 1; an append crossing the ceiling rotates exactly
once. -/
theorem C8_log_rotation_witness :
    (rotate_log_file false demoStart).gens 1 = demoStart.gens 0
    ∧ (rotate_log_file false demoStart).gens 0 = demoStart.current
    ∧ (log_event_adv (MAX_LOG_SIZE_MB * 1024 * 1024 + 1) false demoStart).rotations
        = demoStart.rotations + 1 := by
  refine ⟨C8_log_rotation.2.1 demoStart 1 (by decide) (by decide),
    C8_log_rotation.2.2.1 demoStart, ?_⟩
  rw [C8_log_rotation.1 (MAX_LOG_SIZE_MB * 1024 * 1024 + 1) false demoStart,
    if_pos (by simp [demoStart])]

/-! ## advanced_monitor.c: extended filter and handle_event -/

namespace AdvancedC

def LOG_FILE : List Char := "advanced_monitor.log".toList
def CONFIG_FILE : List Char := "advanced_monitor.conf".toList
def STATS_FILE : List Char := "monitor_stats.json".toList

/-- should_monitor_file from advanced_monitor.c: the pattern layer first
(its alert notices are logged as a side effect even if a later layer
rejects), then the same extension allow-list as the basic variants.
Returns (accept?, alert log lines). -/
def should_monitor_file (rules : List PatternRule) (exts : List (List Char))
    (fn : List Char) : Bool × List (List Char) :=
  let m := match_patterns rules fn
  if m.fst = false then (false, m.snd)
  else if exts.length = 0 then (true, m.snd)
  else
    match afterLastDot fn with
    | none => (false, m.snd)
    | some e => (exts.any (fun x => x == e), m.snd)

/-- Result of one advanced_monitor.c handle_event call. -/
structure AdvResult where
  hashes : List FileHashInfo
  logs : List (List Char)
  recursedInto : List (List Char)

/-- A log line "<template><path> (<size> bytes)". -/
def msgBytes (template : String) (p : List Char) (sz : Nat) : List Char :=
  template.toList ++ p ++ " (".toList ++ (toString sz).toList ++ " bytes)".toList

/-- The large-file notice. -/
def largeMsg (szMb : Nat) (p : List Char) : List Char :=
  "Large file detected (".toList ++ (toString szMb).toList ++ " MB): ".toList ++ p

/-- handle_event from advanced_monitor.c: drops nameless events; then
always rejects its own log/config/stats file names and any name containing
".tmp" or ".swp" before the filter layers are consulted; then runs the
pattern+extension filter; then stats the file (a large file gets a notice),
and logs one line per set flag over all eight kinds, with IN_MODIFY gated
by has_file_changed.  statRes is the st_size stat delivers for the full
path (none = stat failed); hashRes and now feed has_file_changed. -/
def handle_event (rules : List PatternRule) (exts : List (List Char))
    (recMode enableChecksum : Bool) (maxFileSizeMb : Nat)
    (statRes : Option Nat) (hashRes : Option (List Char)) (now : Nat)
    (hashes : List FileHashInfo) (ev : InotifyEvent) (watchPath : List Char) :
    AdvResult :=
  match ev.name with
  | none => ⟨hashes, [], []⟩
  | some nm =>
    if nm == LOG_FILE || nm == CONFIG_FILE || nm == STATS_FILE
        || containsSeq ".tmp".toList nm || containsSeq ".swp".toList nm then
      ⟨hashes, [], []⟩
    else
      let m := AdvancedC.should_monitor_file rules exts nm
      if m.fst = false then ⟨hashes, m.snd, []⟩
      else
        let full := watchPath ++ '/' :: nm
        let fileSize := statRes.getD 0
        let lLarge :=
          match statRes with
          | some sz =>
            if sz > maxFileSizeMb * 1024 * 1024 then
              [largeMsg (sz / (1024 * 1024)) full]
            else []
          | none => []
        let l1 := if maskHas ev.mask IN_CREATE then
                    [msgBytes "Created: " full fileSize] else []
        let r1 := if recMode && (maskHas ev.mask IN_CREATE
                      && maskHas ev.mask IN_ISDIR) then [full] else []
        let l2 := if maskHas ev.mask IN_DELETE then [msg "Deleted: " full] else []
        let hs2 := if maskHas ev.mask IN_MODIFY then
            (has_file_changed enableChecksum hashRes now statRes full hashes).snd
          else hashes
        let l3 := if maskHas ev.mask IN_MODIFY then
            (if (has_file_changed enableChecksum hashRes now statRes full hashes).fst
             then [msgBytes "Modified: " full fileSize] else [])
          else []
        let l4 := if maskHas ev.mask IN_MOVED_FROM then
                    [msg "Moved from: " full] else []
        let l5 := if maskHas ev.mask IN_MOVED_TO then
                    [msgBytes "Moved to: " full fileSize] else []
        let l6 := if maskHas ev.mask IN_ATTRIB then
                    [msg "Attribute changed: " full] else []
        let l7 := if maskHas ev.mask IN_OPEN then [msg "Opened: " full] else []
        let l8 := if maskHas ev.mask IN_CLOSE_WRITE then
                    [msgBytes "Closed: " full fileSize] else []
        ⟨hs2, m.snd ++ lLarge ++ l1 ++ l2 ++ l3 ++ l4 ++ l5 ++ l6 ++ l7 ++ l8, r1⟩

end AdvancedC

/-! ## monitor.c advanced mode: handle_event_advanced -/

namespace MonitorC

def LOG_FILE : List Char := "monitor.log".toList
def CONFIG_FILE : List Char := "monitor.conf".toList
def STATS_FILE : List Char := "monitor_stats.json".toList

/-- Result of one monitor.c handle_event_advanced call. -/
structure AdvBasicResult where
  totalEvents : Nat
  hashes : List FileHashInfo
  logs : List (List Char)
  recursedInto : List (List Char)

/-- handle_event_advanced from monitor.c: bumps total_events, then for a
named event applies only the extension filter — there is no self-exclusion
of the monitor's own log/config/stats files and no ".tmp"/".swp" check —
and logs per set flag over the same seven kinds as basic mode (no
IN_ATTRIB), with IN_MODIFY gated by check_file_changed. -/
def handle_event_advanced (exts : List (List Char)) (recMode enableChecksum : Bool)
    (hashRes : Option (List Char)) (now : Nat) (statRes : Option Nat)
    (totalEvents : Nat) (hashes : List FileHashInfo)
    (ev : InotifyEvent) (watchPath : List Char) : AdvBasicResult :=
  let t := totalEvents + 1
  match ev.name with
  | none => ⟨t, hashes, [], []⟩
  | some nm =>
    if should_monitor_file exts nm = false then ⟨t, hashes, [], []⟩
    else
      let full := watchPath ++ '/' :: nm
      let l1 := if maskHas ev.mask IN_CREATE then [msg "Created: " full] else []
      let r1 := if maskHas ev.mask IN_CREATE && (maskHas ev.mask IN_ISDIR && recMode) then
                  [full] else []
      let l2 := if maskHas ev.mask IN_DELETE then [msg "Deleted: " full] else []
      let hs2 := if maskHas ev.mask IN_MODIFY then
          (check_file_changed enableChecksum hashRes now statRes full hashes).snd
        else hashes
      let l3 := if maskHas ev.mask IN_MODIFY then
          (if (check_file_changed enableChecksum hashRes now statRes full hashes).fst
           then [msg "Modified (checksum changed): " full] else [])
        else []
      let l4 := if maskHas ev.mask IN_MOVED_FROM then [msg "Moved from: " full] else []
      let l5 := if maskHas ev.mask IN_MOVED_TO then [msg "Moved to: " full] else []
      let l6 := if maskHas ev.mask IN_OPEN then [msg "Opened: " full] else []
      let l7 := if maskHas ev.mask IN_CLOSE then [msg "Closed: " full] else []
      ⟨t, hs2, l1 ++ l2 ++ l3 ++ l4 ++ l5 ++ l6 ++ l7, r1⟩

end MonitorC

/-- Early return of main.c handle_event on excluded names. -/
theorem main_handle_event_excluded (exts : List (List Char)) (recMode : Bool)
    (ev : InotifyEvent) (wp nm : List Char) (hname : ev.name = some nm)
    (hexcl : (nm == MainC.LOG_FILE || nm == MainC.CONFIG_FILE
      || containsSeq ".tmp".toList nm || containsSeq ".swp".toList nm) = true) :
    MainC.handle_event exts recMode ev wp = ⟨[], []⟩ := by
  obtain ⟨wd, mask, name⟩ := ev
  cases hname
  simp only [MainC.handle_event]
  rw [if_pos hexcl]

/-- Early return of advanced_monitor.c handle_event on excluded names. -/
theorem adv_handle_event_excluded (rules : List PatternRule)
    (exts : List (List Char)) (recMode ec : Bool) (maxMb : Nat)
    (statRes : Option Nat) (hashRes : Option (List Char)) (now : Nat)
    (hashes : List FileHashInfo) (ev : InotifyEvent) (wp nm : List Char)
    (hname : ev.name = some nm)
    (hexcl : (nm == AdvancedC.LOG_FILE || nm == AdvancedC.CONFIG_FILE
      || nm == AdvancedC.STATS_FILE || containsSeq ".tmp".toList nm
      || containsSeq ".swp".toList nm) = true) :
    AdvancedC.handle_event rules exts recMode ec maxMb statRes hashRes now hashes ev wp
      = ⟨hashes, [], []⟩ := by
  obtain ⟨wd, mask, name⟩ := ev
  cases hname
  simp only [AdvancedC.handle_event]
  rw [if_pos hexcl]

/-- Claim C6 counterexample: in monitor.c handle_event_advanced an event
named exactly like the monitor's own log file ("monitor.log", the unified
monitor's LOG_FILE) is not excluded: with an empty allow-list it produces a
"Created:" log line — monitor.c performs no self-exclusion at all. -/
theorem C6_self_exclusion_counterexample :
    (MonitorC.handle_event_advanced [] true true (some "h1".toList) 0 (some 3) 0 []
        ⟨1, IN_CREATE, some "monitor.log".toList⟩ "d".toList).logs
      = [msg "Created: " "d/monitor.log".toList]
    ∧ "monitor.log".toList = MonitorC.LOG_FILE := by
  constructor
  · rfl
  · rfl

/-- Claim C6 (amended): the standalone dispatchers do reject their own
bookkeeping files and transient markers before the extension and pattern
layers are consulted and with no log line or cache access:
advanced_monitor.c rejects its log, config and stats file names and any
name containing ".tmp" or ".swp"; main.c rejects its log and config names
and the same markers (it has no stats file).  The unified monitor.c
dispatchers perform no such self-exclusion (see the counterexample). -/
theorem C6_self_exclusion_amended :
    (∀ (rules : List PatternRule) (exts : List (List Char)) (recMode ec : Bool)
        (maxMb : Nat) (statRes : Option Nat) (hashRes : Option (List Char))
        (now : Nat) (hashes : List FileHashInfo) (ev : InotifyEvent)
        (wp nm : List Char), ev.name = some nm →
      (nm = AdvancedC.LOG_FILE ∨ nm = AdvancedC.CONFIG_FILE
        ∨ nm = AdvancedC.STATS_FILE ∨ containsSeq ".tmp".toList nm = true
        ∨ containsSeq ".swp".toList nm = true) →
      AdvancedC.handle_event rules exts recMode ec maxMb statRes hashRes now hashes ev wp
        = ⟨hashes, [], []⟩)
    ∧ (∀ (exts : List (List Char)) (recMode : Bool) (ev : InotifyEvent)
        (wp nm : List Char), ev.name = some nm →
      (nm = MainC.LOG_FILE ∨ nm = MainC.CONFIG_FILE
        ∨ containsSeq ".tmp".toList nm = true
        ∨ containsSeq ".swp".toList nm = true) →
      MainC.handle_event exts recMode ev wp = ⟨[], []⟩) := by
  constructor
  · intro rules exts recMode ec maxMb statRes hashRes now hashes ev wp nm hname hcase
    refine adv_handle_event_excluded rules exts recMode ec maxMb statRes hashRes
      now hashes ev wp nm hname ?_
    rcases hcase with h | h | h | h | h <;> simp_all
  · intro exts recMode ev wp nm hname hcase
    refine main_handle_event_excluded exts recMode ev wp nm hname ?_
    rcases hcase with h | h | h | h <;> simp_all

/-- Concrete instance of C6 (amended): advanced_monitor.c drops an event
named like its stats file even with an alert-everything pattern registered
(no alert is logged, so the rule set was never consulted). -/
theorem C6_self_exclusion_amended_witness :
    AdvancedC.handle_event [⟨"all".toList, 2, fun _ => true⟩] [] true true 100
        (some 1) (some "h".toList) 0 []
        ⟨1, IN_CREATE, some "monitor_stats.json".toList⟩ "d".toList
      = ⟨[], [], []⟩ :=
  C6_self_exclusion_amended.1 [⟨"all".toList, 2, fun _ => true⟩] [] true true 100
    (some 1) (some "h".toList) 0 []
    ⟨1, IN_CREATE, some "monitor_stats.json".toList⟩ "d".toList
    "monitor_stats.json".toList rfl (Or.inr (Or.inr (Or.inl (by decide))))

/-- Claim C10: any event whose name contains ".tmp" or ".swp" anywhere as a
substring is dropped by main.c and advanced_monitor.c handle_event before
filtering, logging or cache consultation: no log line, no hash-table
change, no recursive watch installation — whatever the extension allow-list
and pattern rules say. -/
theorem C10_tmp_swp_substring_drop (rules : List PatternRule)
    (exts : List (List Char)) (recMode ec : Bool) (maxMb : Nat)
    (statRes : Option Nat) (hashRes : Option (List Char)) (now : Nat)
    (hashes : List FileHashInfo) (ev : InotifyEvent) (wp nm : List Char)
    (hname : ev.name = some nm)
    (hsub : containsSeq ".tmp".toList nm = true
      ∨ containsSeq ".swp".toList nm = true) :
    MainC.handle_event exts recMode ev wp = ⟨[], []⟩
    ∧ AdvancedC.handle_event rules exts recMode ec maxMb statRes hashRes now hashes ev wp
      = ⟨hashes, [], []⟩ := by
  constructor
  · refine main_handle_event_excluded exts recMode ev wp nm hname ?_
    rcases hsub with h | h <;> simp_all
  · refine adv_handle_event_excluded rules exts recMode ec maxMb statRes hashRes
      now hashes ev wp nm hname ?_
    rcases hsub with h | h <;> simp_all

/-- Concrete instance of C10: creating "a.tmp.txt" with txt on the
allow-list yields no event in main.c, and "x.swpfile" none in
advanced_monitor.c. -/
theorem C10_tmp_swp_substring_drop_witness :
    MainC.handle_event ["txt".toList] true
        ⟨1, IN_CREATE, some "a.tmp.txt".toList⟩ "d".toList = ⟨[], []⟩
    ∧ AdvancedC.handle_event [] ["txt".toList] true true 100 (some 1)
        (some "h".toList) 0 [] ⟨1, IN_CREATE, some "x.swpfile".toList⟩
        "d".toList = ⟨[], [], []⟩ := by
  constructor
  · exact (C10_tmp_swp_substring_drop [] ["txt".toList] true true 100 (some 1)
      (some "h".toList) 0 [] ⟨1, IN_CREATE, some "a.tmp.txt".toList⟩ "d".toList
      "a.tmp.txt".toList rfl (Or.inl (by decide))).1
  · exact (C10_tmp_swp_substring_drop [] ["txt".toList] true true 100 (some 1)
      (some "h".toList) 0 [] ⟨1, IN_CREATE, some "x.swpfile".toList⟩ "d".toList
      "x.swpfile".toList rfl (Or.inr (by decide))).2
